import Mathlib

/-!
# Kiosk — verification of the content model, renderer, image lifecycle,
# journal membership state machine and purchase ledger

Shallow embedding of the Kiosk repository's core logic:

* `src/src/types/types.ts` — the TipTap content-tree types (`TipTapNode`,
  `TipTapMark`),
* `src/src/components/ui/FullArticle.tsx` — `applyMarks` / `renderNode`,
* `src/src/app/api/articles/route.ts` — `extractImageUrls` and the
  orphan-image linking step of article publication,
* `src/src/app/api/cron/cleanup-images/route.ts` — the orphan sweep,
* the journal member routes (`requireAdmin`, `PATCH` role change with its
  cascade delete),
* `src/src/app/article/[articleId]/page.tsx` — the read-view gating,
* the `article_purchase` schema (unique `(userId, articleId)` index) with
  the purchase-recording contract.

JavaScript `undefined`/absent fields are modelled with `Option`; JS string
truthiness (`""` and `undefined` are falsy) is made explicit.  Tailwind
class strings are presentational and not part of the semantic model.
-/

namespace Kiosk

/-! ## Content tree model (types.ts)

`TipTapNode.attrs` is `Record<string, any>` in the source; the renderer and
the URL extractor only ever read the keys modelled below, each of which can
be absent. -/

/-- The attribute keys of a TipTap node that the Kiosk code reads
(`src`, `alt`, `title` on images; `level`, `textAlign` on headings and
paragraphs; `checked` on task items; `start` on ordered lists). -/
structure NodeAttrs where
  src : Option String := none
  alt : Option String := none
  title : Option String := none
  level : Option Int := none
  textAlign : Option String := none
  checked : Option Bool := none
  start : Option Int := none
  deriving Repr, DecidableEq

/-- The attribute keys of a TipTap mark that the renderer reads
(`href`, `target` on links). -/
structure MarkAttrs where
  href : Option String := none
  target : Option String := none
  deriving Repr, DecidableEq

/-- Model of `TipTapMark` from types.ts: `{ type: string; attrs?: ... }`. -/
structure TipTapMark where
  type : String
  attrs : Option MarkAttrs := none
  deriving Repr, DecidableEq

/-- Model of `TipTapNode` from types.ts:
`{ type: string; attrs?: ...; content?: TipTapNode[]; text?: string;
marks?: TipTapMark[] }`. -/
inductive TipTapNode : Type where
  | mk (type : String) (attrs : Option NodeAttrs)
      (content : Option (List TipTapNode)) (text : Option String)
      (marks : Option (List TipTapMark)) : TipTapNode
  deriving Repr

/-- Projection for the `type` field. -/
def TipTapNode.type : TipTapNode → String
  | .mk ty _ _ _ _ => ty

/-- Projection for the `attrs` field. -/
def TipTapNode.attrs : TipTapNode → Option NodeAttrs
  | .mk _ a _ _ _ => a

/-- Projection for the `content` field. -/
def TipTapNode.content : TipTapNode → Option (List TipTapNode)
  | .mk _ _ c _ _ => c

/-- Projection for the `text` field. -/
def TipTapNode.text : TipTapNode → Option String
  | .mk _ _ _ t _ => t

/-- Projection for the `marks` field. -/
def TipTapNode.marks : TipTapNode → Option (List TipTapMark)
  | .mk _ _ _ _ m => m

/-- JS truthiness of an optional string: `undefined` and `""` are falsy. -/
def strTruthy : Option String → Bool
  | some s => s ≠ ""
  | none => false

/-! ## Rendered output model

`renderNode` in FullArticle.tsx produces React elements; `RNode` models the
element structure (tag and semantic attributes).  Tailwind `className`
strings are omitted, except for the text-alignment class which is computed
by `alignmentClass` from an attribute. -/

/-- The shape of the React output of `renderNode` / `applyMarks`. -/
inductive RNode : Type where
  /-- a plain text run -/
  | text (s : String)
  /-- element `<strong>` (bold mark) -/
  | strong (c : RNode)
  /-- element `<em>` (italic mark) -/
  | em (c : RNode)
  /-- element `<s>` (strike mark) -/
  | strike (c : RNode)
  /-- element `<u>` (underline mark) -/
  | underline (c : RNode)
  /-- inline `<code>` (code mark) -/
  | codeInline (c : RNode)
  /-- element `<a href target>` (link mark) -/
  | anchor (href : Option String) (target : String) (c : RNode)
  /-- element `<mark>` (highlight mark) -/
  | highlight (c : RNode)
  /-- element `<sub>` (subscript mark) -/
  | sub (c : RNode)
  /-- element `<sup>` (superscript mark) -/
  | sup (c : RNode)
  /-- a keyed `React.Fragment` around a rendered text node -/
  | keyedFragment (c : RNode)
  /-- a `React.Fragment` around the children of a `doc` node -/
  | fragment (cs : List RNode)
  /-- element `<p>` with its alignment class -/
  | paragraph (align : String) (cs : List RNode)
  /-- elements `<h1>`–`<h6>`; `tag` is the heading tag number actually emitted -/
  | heading (tag : Int) (align : String) (cs : List RNode)
  /-- element `<figure><img src alt title/>…</figure>`; `caption` records whether a
  `<figcaption>` is emitted -/
  | image (src : Option String) (alt : String) (title : Option String)
      (caption : Bool)
  /-- element `<blockquote>` -/
  | blockquote (cs : List RNode)
  /-- element `<pre><code>` block -/
  | codeBlock (cs : List RNode)
  /-- element `<ul>` -/
  | bulletList (cs : List RNode)
  /-- element `<ol start>` -/
  | orderedList (start : Int) (cs : List RNode)
  /-- element `<li>` -/
  | listItem (cs : List RNode)
  /-- task-list `<ul>` -/
  | taskList (cs : List RNode)
  /-- task `<li>` with its checkbox state -/
  | taskItem (checked : Bool) (cs : List RNode)
  /-- element `<hr/>` -/
  | hrule
  /-- element `<br/>` -/
  | hardBreak
  /-- the generic `<div>` emitted for an unknown node type with children -/
  | container (cs : List RNode)
  /-- React `null`: nothing is emitted -/
  | nothing
  deriving Repr

/-- Definition `alignmentClass` from FullArticle.tsx: maps a `textAlign` attr value to
a Tailwind class, defaulting to `text-left`. -/
def alignmentClass (align : Option String) : String :=
  if align = some "center" then "text-center"
  else if align = some "right" then "text-right"
  else if align = some "justify" then "text-justify"
  else "text-left"

/-- One step of `applyMarks`'s `reduceRight` callback: wraps `w` in the
inline element for mark `m`; an unrecognised mark type wraps nothing. -/
def wrapMark (m : TipTapMark) (w : RNode) : RNode :=
  if m.type = "bold" then .strong w
  else if m.type = "italic" then .em w
  else if m.type = "strike" then .strike w
  else if m.type = "underline" then .underline w
  else if m.type = "code" then .codeInline w
  else if m.type = "link" then
    .anchor (m.attrs.bind (·.href)) ((m.attrs.bind (·.target)).getD "_blank") w
  else if m.type = "highlight" then .highlight w
  else if m.type = "subscript" then .sub w
  else if m.type = "superscript" then .sup w
  else w

/-- Definition `applyMarks` from FullArticle.tsx: if there are no marks the children
are returned as-is, otherwise the mark list is folded from the right
(`reduceRight`), so the first mark becomes the outermost wrapper. -/
def applyMarks (children : RNode) (marks : Option (List TipTapMark)) : RNode :=
  match marks with
  | none => children
  | some ms => if ms = [] then children else ms.foldr wrapMark children

mutual

/-- Definition `renderNode` from FullArticle.tsx: recursively converts a TipTap node
into its output element, dispatching on `type` with a graceful fallback for
unknown types. -/
def renderNode : TipTapNode → RNode
  | .mk ty attrs content text marks =>
    if ty = "text" then
      .keyedFragment (applyMarks (.text (text.getD "")) marks)
    else
      -- children = node.content?.map(renderNode); React renders an absent
      -- children list the same as an empty one inside a known wrapper
      let kids : List RNode :=
        match content with
        | some l => renderList l
        | none => []
      if ty = "doc" then .fragment kids
      else if ty = "paragraph" then
        .paragraph (alignmentClass (attrs.bind (·.textAlign))) kids
      else if ty = "heading" then
        -- const level = node.attrs?.level ?? 2; the switch emits h1/h3–h6
        -- for those levels and falls back to h2 otherwise
        let level := (attrs.bind (·.level)).getD 2
        let tag : Int :=
          if level = 1 ∨ level = 3 ∨ level = 4 ∨ level = 5 ∨ level = 6
          then level else 2
        .heading tag (alignmentClass (attrs.bind (·.textAlign))) kids
      else if ty = "image" then
        .image (attrs.bind (·.src)) ((attrs.bind (·.alt)).getD "")
          (attrs.bind (·.title)) (strTruthy (attrs.bind (·.alt)))
      else if ty = "blockquote" then .blockquote kids
      else if ty = "codeBlock" then .codeBlock kids
      else if ty = "bulletList" then .bulletList kids
      else if ty = "orderedList" then
        .orderedList ((attrs.bind (·.start)).getD 1) kids
      else if ty = "listItem" then .listItem kids
      else if ty = "taskList" then .taskList kids
      else if ty = "taskItem" then
        .taskItem ((attrs.bind (·.checked)).getD false) kids
      else if ty = "horizontalRule" then .hrule
      else if ty = "hardBreak" then .hardBreak
      else
        -- fallback: `if (children)` — children is undefined iff
        -- node.content is undefined (an empty array is truthy in JS)
        match content with
        | some l => .container (renderList l)
        | none => .nothing

/-- Renders a list of sibling nodes (`content.map(renderNode)`). -/
def renderList : List TipTapNode → List RNode
  | [] => []
  | c :: cs => renderNode c :: renderList cs

end

mutual

/-- Definition `extractImageUrls` from `api/articles/route.ts`: depth-first pre-order
traversal pushing `n.attrs.src` for every node with `type === "image"` and
a truthy `src` (JS truthiness: absent or empty `src` is skipped). -/
def extractImageUrls : TipTapNode → List String
  | .mk ty attrs content _ _ =>
    (if ty = "image" ∧ strTruthy (attrs.bind (·.src)) then
      (attrs.bind (·.src)).toList
    else []) ++
    (match content with
    | some l => extractImageUrlsList l
    | none => [])

/-- Traversal `n.content.forEach(traverse)` over a sibling list. -/
def extractImageUrlsList : List TipTapNode → List String
  | [] => []
  | c :: cs => extractImageUrls c ++ extractImageUrlsList cs

end

/-! ## Auxiliary observations on the renderer and the extractor -/

/-- The node types `renderNode`'s switch handles explicitly; every other
type takes the generic fallback branch. -/
def knownNodeTypes : List String :=
  ["text", "doc", "paragraph", "heading", "image", "blockquote", "codeBlock",
    "bulletList", "orderedList", "listItem", "taskList", "taskItem",
    "horizontalRule", "hardBreak"]

/-- The mark types `applyMarks` wraps; any other mark type wraps nothing. -/
def knownMarkTypes : List String :=
  ["bold", "italic", "strike", "underline", "code", "link", "highlight",
    "subscript", "superscript"]

/-- Reads off the mark-wrapper spine of a rendered inline element, from the
outermost wrapper inwards, as the corresponding mark-type names. -/
def markSpine : RNode → List String
  | .strong c => "bold" :: markSpine c
  | .em c => "italic" :: markSpine c
  | .strike c => "strike" :: markSpine c
  | .underline c => "underline" :: markSpine c
  | .codeInline c => "code" :: markSpine c
  | .anchor _ _ c => "link" :: markSpine c
  | .highlight c => "highlight" :: markSpine c
  | .sub c => "subscript" :: markSpine c
  | .sup c => "superscript" :: markSpine c
  | _ => []

/-- The text found at the centre of a stack of mark wrappers, if any. -/
def innermostText : RNode → Option String
  | .text s => some s
  | .strong c => innermostText c
  | .em c => innermostText c
  | .strike c => innermostText c
  | .underline c => innermostText c
  | .codeInline c => innermostText c
  | .anchor _ _ c => innermostText c
  | .highlight c => innermostText c
  | .sub c => innermostText c
  | .sup c => innermostText c
  | _ => none

mutual

/-- Counts the image-type nodes with a truthy `src` — the nodes whose `src`
`extractImageUrls` pushes. -/
def countImageSrcNodes : TipTapNode → Nat
  | .mk ty attrs content _ _ =>
    (if ty = "image" ∧ strTruthy (attrs.bind (·.src)) then 1 else 0) +
    (match content with
    | some l => countImageSrcNodesList l
    | none => 0)

/-- Sum of `countImageSrcNodes` over a sibling list. -/
def countImageSrcNodesList : List TipTapNode → Nat
  | [] => 0
  | c :: cs => countImageSrcNodes c + countImageSrcNodesList cs

end

mutual

/-- Whether some image-type node in the tree carries `u` as its (truthy)
`src` attribute. -/
def hasImageSrc : TipTapNode → String → Bool
  | .mk ty attrs content _ _, u =>
    (decide (ty = "image" ∧ strTruthy (attrs.bind (·.src)) ∧
      attrs.bind (·.src) = some u)) ||
    (match content with
    | some l => hasImageSrcList l u
    | none => false)

/-- Disjunction of `hasImageSrc` over a sibling list. -/
def hasImageSrcList : List TipTapNode → String → Bool
  | [], _ => false
  | c :: cs, u => hasImageSrc c u || hasImageSrcList cs u

end

/-- The two-image tree used to settle the duplicate-URL behaviour of
`extractImageUrls`: a `doc` whose two children are image nodes with the
same `src` `"x"`. -/
def twoSameSrcImagesTree : TipTapNode :=
  .mk "doc" none
    (some [.mk "image" (some { src := some "x" }) none none none,
      .mk "image" (some { src := some "x" }) none none none])
    none none

/-! ## Image lifecycle (api/images, api/articles linking, cleanup cron)

An `Image` row as created by the upload flow: `id`, `url`, unique `key`,
owning `userId`, nullable `articleId` (null = orphan) and `createdAt`
timestamp (milliseconds since epoch, as `Date.now()`). -/

/-- A row of the `image` table. -/
structure Image where
  id : Nat
  url : String
  key : String
  userId : Nat
  articleId : Option Nat
  createdAt : Int
  deriving Repr, DecidableEq

/-- The image URLs a publish gathers: `extractImageUrls(content)` plus the
thumbnail URL when truthy (`if (thumbnailUrl) imageUrls.push(thumbnailUrl)`
in the POST handler). -/
def publishImageUrls (content : TipTapNode) (thumbnailUrl : Option String) :
    List String :=
  extractImageUrls content ++
    (if strTruthy thumbnailUrl then thumbnailUrl.toList else [])

/-- The `prisma.image.updateMany` of the publish POST: every image whose
`url` is in `urls`, owned by `userId` and currently orphan
(`articleId: null`) gets `articleId` set; nothing else changes. -/
def linkOrphanImages (imgs : List Image) (urls : List String) (userId : Nat)
    (articleId : Nat) : List Image :=
  imgs.map (fun img =>
    if img.url ∈ urls ∧ img.userId = userId ∧ img.articleId = none then
      { img with articleId := some articleId }
    else img)

/-- The image-linking step of POST /api/articles: compute the referenced
URLs and, when the list is non-empty, run the `updateMany`. -/
def publishLinkImages (imgs : List Image) (content : TipTapNode)
    (thumbnailUrl : Option String) (userId : Nat) (articleId : Nat) :
    List Image :=
  let imageUrls := publishImageUrls content thumbnailUrl
  if 0 < imageUrls.length then linkOrphanImages imgs imageUrls userId articleId
  else imgs

/-- The sweep's retention window: `24 * 60 * 60 * 1000` milliseconds
(`twentyFourHoursAgo = new Date(Date.now() - 24 * 60 * 60 * 1000)`). -/
def retentionWindowMs : Int := 24 * 60 * 60 * 1000

/-- The orphan filter of the cleanup query: `articleId: null` and
`createdAt: { lt: twentyFourHoursAgo }`. -/
def isStaleOrphan (now : Int) (img : Image) : Bool :=
  img.articleId = none ∧ img.createdAt < now - retentionWindowMs

/-- The result the storage collaborator (`utapi.deleteFiles`) reports for a
batch: overall `success` flag and how many files were deleted. -/
structure StorageDeleteResult where
  success : Bool
  deletedCount : Nat
  deriving Repr, DecidableEq

/-- Outcome of one cleanup run: the surviving image rows and the number of
database rows deleted. -/
structure CleanupOutcome where
  remaining : List Image
  deleted : Nat
  deriving Repr, DecidableEq

/-- GET /api/cron/cleanup-images: find stale orphans, attempt the storage
batch deletion, and delete database rows only when the whole batch
succeeded; on partial (`deletedCount > 0` but not `success`) or complete
storage failure no database row is touched. -/
def cleanupImages (now : Int) (imgs : List Image)
    (storage : StorageDeleteResult) : CleanupOutcome :=
  let orphanImages := imgs.filter (isStaleOrphan now)
  if orphanImages.isEmpty then ⟨imgs, 0⟩
  else if storage.success then
    -- all files deleted: successfullyDeletedKeys = keys
    let keys := orphanImages.map (·.key)
    let idsToDelete :=
      (orphanImages.filter (fun img => keys.contains img.key)).map (·.id)
    ⟨imgs.filter (fun img => ¬ idsToDelete.contains img.id),
      imgs.countP (fun img => idsToDelete.contains img.id)⟩
  else if 0 < storage.deletedCount then
    -- partial success: fail closed, delete nothing from the database
    ⟨imgs, 0⟩
  else
    -- complete failure: delete nothing from the database
    ⟨imgs, 0⟩

/-! ## Journal membership state machine (journal member routes)

Journals, their member rows and the journal slice of article rows;
`patchMemberRole` is the PATCH handler: role update, admin recount, and
the cascade transaction when the count reaches zero. -/

/-- The `JournalRole` enum of the schema. -/
inductive JournalRole : Type where
  | ADMIN
  | WRITER
  deriving Repr, DecidableEq

/-- A row of the `journal_member` table (the fields the routes read). -/
structure JournalMember where
  id : Nat
  userId : Nat
  journalId : Nat
  role : JournalRole
  deriving Repr, DecidableEq

/-- The journal-related slice of an `article` row: its id and its nullable
`journalId` reference. -/
structure JArticle where
  id : Nat
  journalId : Option Nat
  deriving Repr, DecidableEq

/-- The database state the journal routes act on: the existing journal ids,
the membership rows and the article rows. -/
structure JournalState where
  journals : List Nat
  members : List JournalMember
  articles : List JArticle
  deriving Repr, DecidableEq

/-- Definition `requireAdmin` from the member routes:
`journalMember.findFirst({ where: { userId, journalId, role: "ADMIN" } })`. -/
def requireAdmin (s : JournalState) (userId journalId : Nat) :
    Option JournalMember :=
  s.members.find? (fun m =>
    m.userId = userId ∧ m.journalId = journalId ∧ m.role = .ADMIN)

/-- The count `journalMember.count({ where: { journalId, role: "ADMIN" } })`. -/
def countAdmins (members : List JournalMember) (journalId : Nat) : Nat :=
  members.countP (fun m => m.journalId = journalId ∧ m.role = .ADMIN)

/-- Response of the PATCH role-change route: 403, 500 (a prisma call
threw), or 200 carrying the `deleted` flag. -/
inductive PatchRoleResult : Type where
  | forbidden
  | serverError
  | ok (deleted : Bool)
  deriving Repr, DecidableEq

/-- The `prisma.journalMember.update({ where: { id: memberId }, data:
{ role } })` of the PATCH route, as a pointwise rewrite of the member
rows. -/
def roleUpdate (members : List JournalMember) (memberId : Nat)
    (role : JournalRole) : List JournalMember :=
  members.map (fun m => if m.id = memberId then { m with role := role } else m)

/-- The cascade transaction of the PATCH route: remove every member row of
the journal, null the `journalId` of every article referencing it, and
delete the journal row. -/
def cascadeState (s : JournalState) (journalId : Nat)
    (updated : List JournalMember) : JournalState :=
  { journals := s.journals.filter (fun j => ¬ j = journalId),
    members := updated.filter (fun m => ¬ m.journalId = journalId),
    articles := s.articles.map (fun a =>
      if a.journalId = some journalId then { a with journalId := none }
      else a) }

/-- PATCH /api/journals/members: requires the caller to be ADMIN of
`journalId`; updates the member row `memberId` to `role`; re-counts the
ADMIN members of `journalId`; if none remain, one transaction removes all
the journal's member rows, nulls the `journalId` of its articles and
deletes the journal, and the response reports `deleted: true`.

The role update itself runs before (outside) the cascade transaction, and
`prisma.journalMember.update` / `prisma.journal.delete` throw when the row
does not exist (caught as a 500; an already-committed role update stays). -/
def patchMemberRole (s : JournalState) (callerId journalId memberId : Nat)
    (role : JournalRole) : PatchRoleResult × JournalState :=
  match requireAdmin s callerId journalId with
  | none => (.forbidden, s)
  | some _ =>
    if s.members.all (fun m => ¬ m.id = memberId) then (.serverError, s)
    else if countAdmins (roleUpdate s.members memberId role) journalId = 0 then
      if journalId ∈ s.journals then
        (.ok true, cascadeState s journalId (roleUpdate s.members memberId role))
      else
        -- journal.delete threw: cascade rolled back, role update kept
        (.serverError, { s with members := roleUpdate s.members memberId role })
    else (.ok false, { s with members := roleUpdate s.members memberId role })

/-- The §4.5 invariant: every existing journal has at least one ADMIN
member. -/
def EveryJournalHasAdmin (s : JournalState) : Prop :=
  ∀ j ∈ s.journals, 0 < countAdmins s.members j

/-- The `journal_member.journalId → journal.id` foreign key: member rows
reference existing journals. -/
def MembersReferenceJournals (s : JournalState) : Prop :=
  ∀ m ∈ s.members, m.journalId ∈ s.journals

/-- Concrete two-journal state: user 10 is the sole ADMIN of journal 1 and
user 20 the sole ADMIN of journal 2. -/
def twoJournalState : JournalState :=
  { journals := [1, 2],
    members := [⟨1, 10, 1, .ADMIN⟩, ⟨2, 20, 2, .ADMIN⟩],
    articles := [⟨7, some 2⟩] }

/-! ## Publish validation (POST /api/articles)

The deployed revision of the publish handler validates the price and the
journal membership; that revision is not among the source files, so these
two checks are modelled from the spec (§4.4) and the repository's own
application-spec document ("API validates price (must be integer 1-5 or
null) and journal membership (if journalId provided)"). -/

/-- The `price` field of a publish request body as JSON: absent/null, an
integer number, or a number that is not an integer. -/
inductive PriceInput : Type where
  | null
  | intVal (n : Int)
  | nonInteger
  deriving Repr, DecidableEq

/-- Modelled from the spec: the price validation missing from the captured
revision of POST /api/articles — "price, if present, must be integer 1–5
(fails ValidationError otherwise)". -/
def validPrice : PriceInput → Bool
  | .null => true
  | .intVal n => 1 ≤ n ∧ n ≤ 5
  | .nonInteger => false

/-- The stored `price` column value for a given price input. -/
def priceValue : PriceInput → Option Int
  | .null => none
  | .intVal n => some n
  | .nonInteger => none

/-- Modelled from the spec: the journal gate missing from the captured
revision of POST /api/articles — "if journalId present, authorId must hold
ADMIN or WRITER membership in that journal (fails ForbiddenError
otherwise)". -/
def holdsJournalMembership (members : List JournalMember)
    (userId journalId : Nat) : Bool :=
  members.any (fun m => m.userId = userId ∧ m.journalId = journalId ∧
    (m.role = .ADMIN ∨ m.role = .WRITER))

/-- The error kinds of the publish pipeline. -/
inductive PublishError : Type where
  | validation
  | forbidden
  deriving Repr, DecidableEq

/-- A publish request body (`title`, `content`, `thumbnailUrl?`, `price?`,
`journalId?`). -/
structure PublishRequest where
  title : String
  content : Option TipTapNode
  thumbnailUrl : Option String
  price : PriceInput
  journalId : Option Nat
  deriving Repr

/-- The created `article` row (the columns publish sets). -/
structure PublishedArticle where
  title : String
  content : TipTapNode
  thumbnailUrl : Option String
  price : Option Int
  journalId : Option Nat
  authorId : Nat
  deriving Repr

/-- Modelled from the spec: the publish validation pipeline of
POST /api/articles, in order — title and content required
(ValidationError), then the price check (ValidationError), then the
journal-membership check (ForbiddenError) — and the article creation with
the validated price. -/
def publish (members : List JournalMember) (authorId : Nat)
    (req : PublishRequest) : Except PublishError PublishedArticle :=
  match req.content with
  | none => .error .validation
  | some content =>
    if req.title = "" then .error .validation
    else if ¬ validPrice req.price then .error .validation
    else
      let article : PublishedArticle :=
        ⟨req.title, content, req.thumbnailUrl, priceValue req.price,
          req.journalId, authorId⟩
      match req.journalId with
      | some j =>
        if holdsJournalMembership members authorId j then .ok article
        else .error .forbidden
      | none => .ok article

/-! ## Purchase ledger and article read view -/

/-- A row of the `article_purchase` table. -/
structure Purchase where
  id : Nat
  userId : Nat
  articleId : Nat
  amountPaid : Int
  deriving Repr, DecidableEq

/-- The unique index `article_purchase_userId_articleId_key` of the
migration: no two rows share the same `(userId, articleId)` pair. -/
def PurchasesUnique (ledger : List Purchase) : Prop :=
  ledger.Pairwise (fun p q => ¬ (p.userId = q.userId ∧ p.articleId = q.articleId))

/-- The ledger error kind: a purchase for the pair already exists. -/
inductive LedgerError : Type where
  | conflict
  deriving Repr, DecidableEq

/-- Modelled from the spec: `recordPurchase(userId, articleId, amountPaid)`
(§4.6) — fails `ConflictError` if a purchase already exists for the
`(user, article)` pair, otherwise appends a row capturing `amountPaid`;
the payment flow itself is unimplemented in the source, only the schema's
unique index exists. -/
def recordPurchase (ledger : List Purchase) (pid userId articleId : Nat)
    (amountPaid : Int) : Except LedgerError (List Purchase) :=
  if ledger.any (fun p => p.userId = userId ∧ p.articleId = articleId) then
    .error .conflict
  else
    .ok (ledger ++ [⟨pid, userId, articleId, amountPaid⟩])

/-- The purchase row stored for a `(user, article)` pair, if any. -/
def findPurchase (ledger : List Purchase) (userId articleId : Nat) :
    Option Purchase :=
  ledger.find? (fun p => p.userId = userId ∧ p.articleId = articleId)

/-- Modelled from the spec: the `hasPurchased` flag
`getArticleById(articleId, viewerUserId)` derives for the read view — true
iff a purchase row exists for the (viewer, article) pair, false for an
anonymous viewer (the getters.ts revision computing it is not among the
source files; its caller page.tsx is). -/
def hasPurchased (purchases : List Purchase) (viewer : Option Nat)
    (articleId : Nat) : Bool :=
  match viewer with
  | some v => purchases.any (fun p => p.userId = v ∧ p.articleId = articleId)
  | none => false

/-- The article fields the read page consults. -/
structure ArticleRead where
  id : Nat
  authorId : Nat
  price : Option Int
  deriving Repr, DecidableEq

/-- The gating computed by the article page
(`app/article/[articleId]/page.tsx`): `shouldShowPurchaseBanner =
hasPrice && !isAuthor && !article.hasPurchased` with
`isAuthor = viewerUserId === article.user.id` and
`hasPrice = article.price !== null && article.price > 0`. -/
def shouldShowPurchaseBanner (article : ArticleRead) (viewer : Option Nat)
    (purchased : Bool) : Bool :=
  let isAuthor : Bool := viewer = some article.authorId
  let hasPrice : Bool := match article.price with
    | some p => decide (0 < p)
    | none => false
  hasPrice && !isAuthor && !purchased

/-- FullArticle.tsx renders the article body iff the banner flag is off
(`{!shouldShowPurchaseBanner && … renderNode(content, 0) …}`). -/
def showsFullContent (banner : Bool) : Bool := ! banner

/-! ## Lemmas about the renderer -/

/-- Evaluating `applyMarks` with a present mark list is the right fold of `wrapMark`
(for the empty list both branches give back the children unchanged). -/
theorem applyMarks_some (children : RNode) (ms : List TipTapMark) :
    applyMarks children (some ms) = ms.foldr wrapMark children := by
  cases ms <;> simp [applyMarks]

/-- Wrapping with a recognised mark prepends exactly that mark's type to
the wrapper spine. -/
theorem markSpine_wrapMark (m : TipTapMark) (hm : m.type ∈ knownMarkTypes)
    (w : RNode) : markSpine (wrapMark m w) = m.type :: markSpine w := by
  simp only [knownMarkTypes, List.mem_cons, List.not_mem_nil, or_false] at hm
  rcases hm with h | h | h | h | h | h | h | h | h <;>
    simp [wrapMark, h, markSpine]

/-- Wrapping with a recognised mark keeps the innermost text unchanged. -/
theorem innermostText_wrapMark (m : TipTapMark)
    (hm : m.type ∈ knownMarkTypes) (w : RNode) :
    innermostText (wrapMark m w) = innermostText w := by
  simp only [knownMarkTypes, List.mem_cons, List.not_mem_nil, or_false] at hm
  rcases hm with h | h | h | h | h | h | h | h | h <;>
    simp [wrapMark, h, innermostText]

/-! ## C6 — graceful rendering of unknown and malformed nodes -/

/-- Claim C6: `renderNode` is a total Lean function (so rendering terminates
on every Content Tree and throws nothing), and it degrades gracefully: an
unknown node type with a children list renders as the generic container
around its recursively rendered children, an unknown leaf (no children
list) emits nothing, and an image node with no `src` attribute still
renders as a media element with an absent (broken) source rather than
failing. -/
theorem renderNode_graceful_degradation (ty : String)
    (attrs : Option NodeAttrs) (cs : List TipTapNode) (text : Option String)
    (marks : Option (List TipTapMark)) (hunk : ty ∉ knownNodeTypes) :
    renderNode (.mk ty attrs (some cs) text marks) =
      .container (renderList cs) ∧
    renderNode (.mk ty attrs none text marks) = .nothing ∧
    (∀ (a : Option NodeAttrs) (c : Option (List TipTapNode)),
      a.bind (·.src) = none →
      renderNode (.mk "image" a c text marks) =
        .image none ((a.bind (·.alt)).getD "") (a.bind (·.title))
          (strTruthy (a.bind (·.alt)))) := by
  simp only [knownNodeTypes, List.mem_cons, List.not_mem_nil, or_false,
    not_or] at hunk
  obtain ⟨n1, n2, n3, n4, n5, n6, n7, n8, n9, n10, n11, n12, n13, n14⟩ := hunk
  refine ⟨?_, ?_, ?_⟩
  · rw [renderNode.eq_def]
    simp [n1, n2, n3, n4, n5, n6, n7, n8, n9, n10, n11, n12, n13, n14]
  · rw [renderNode.eq_def]
    simp [n1, n2, n3, n4, n5, n6, n7, n8, n9, n10, n11, n12, n13, n14]
  · intro a c hsrc
    rw [renderNode.eq_def]
    simp [hsrc]

/-- Witness for C6 at the unknown type `"galleryBlock"` and an image node
with no attrs at all. -/
theorem renderNode_graceful_degradation_witness :
    renderNode (.mk "galleryBlock" none
        (some [.mk "horizontalRule" none none none none]) none none) =
      .container [.hrule] ∧
    renderNode (.mk "galleryBlock" none none none none) = .nothing ∧
    renderNode (.mk "image" none none none none) =
      .image none "" none false := by
  have h := renderNode_graceful_degradation "galleryBlock" none
    [.mk "horizontalRule" none none none none] none none (by decide)
  refine ⟨?_, h.2.1, ?_⟩
  · rw [h.1]; rfl
  · have h3 := h.2.2 none none rfl
    simpa using h3

/-! ## C7 — mark nesting order -/

/-- Claim C7: For a text run with mark sequence `[m1, …, mn]` (each of a
mark type the renderer recognises), the output of `applyMarks` is the text
wrapped once per mark with `m1`'s wrapper outermost and `mn`'s innermost:
reading the wrapper spine from the outside in yields exactly
`[m1.type, …, mn.type]`, with the original text at the centre. -/
theorem applyMarks_nests_first_mark_outermost (s : String)
    (ms : List TipTapMark) (hk : ∀ m ∈ ms, m.type ∈ knownMarkTypes) :
    markSpine (applyMarks (.text s) (some ms)) = ms.map (·.type) ∧
    innermostText (applyMarks (.text s) (some ms)) = some s := by
  rw [applyMarks_some]
  induction ms with
  | nil => exact ⟨rfl, rfl⟩
  | cons m rest ih =>
    have hm : m.type ∈ knownMarkTypes := hk m (by simp)
    have hrest : ∀ x ∈ rest, x.type ∈ knownMarkTypes := by
      intro x hx
      exact hk x (by simp [hx])
    obtain ⟨ih1, ih2⟩ := ih hrest
    constructor
    · rw [List.foldr_cons, markSpine_wrapMark m hm, ih1, List.map_cons]
    · rw [List.foldr_cons, innermostText_wrapMark m hm, ih2]

/-- Witness for C7 at the mark sequence `[bold, italic]` on `"hi"`: bold
ends up outermost, italic innermost. -/
theorem applyMarks_nests_first_mark_outermost_witness :
    markSpine (applyMarks (.text "hi")
        (some [⟨"bold", none⟩, ⟨"italic", none⟩])) = ["bold", "italic"] ∧
    innermostText (applyMarks (.text "hi")
        (some [⟨"bold", none⟩, ⟨"italic", none⟩])) = some "hi" :=
  applyMarks_nests_first_mark_outermost "hi"
    [⟨"bold", none⟩, ⟨"italic", none⟩] (by decide)

/-! ## C8 — what `extractImageUrls` returns -/

mutual

/-- Function `extractImageUrls` yields one entry per image node with a truthy
`src`. -/
theorem extractImageUrls_length (t : TipTapNode) :
    (extractImageUrls t).length = countImageSrcNodes t := by
  match t with
  | .mk ty attrs content text marks =>
    rw [extractImageUrls.eq_def, countImageSrcNodes.eq_def]
    cases content with
    | none =>
      by_cases h : ty = "image" ∧ strTruthy (attrs.bind (·.src)) = true
      · obtain ⟨h1, h2⟩ := h
        cases hsrc : attrs.bind (·.src) with
        | none => rw [hsrc] at h2; simp [strTruthy] at h2
        | some s => rw [hsrc] at h2; simp [h1, h2, hsrc]
      · simp [h]
    | some l =>
      have ih := extractImageUrlsList_length l
      by_cases h : ty = "image" ∧ strTruthy (attrs.bind (·.src)) = true
      · obtain ⟨h1, h2⟩ := h
        cases hsrc : attrs.bind (·.src) with
        | none => rw [hsrc] at h2; simp [strTruthy] at h2
        | some s => rw [hsrc] at h2; simp [h1, h2, hsrc, ih, Nat.add_comm]
      · simp [h, ih]

/-- List version of `extractImageUrls_length`. -/
theorem extractImageUrlsList_length (l : List TipTapNode) :
    (extractImageUrlsList l).length = countImageSrcNodesList l := by
  match l with
  | [] => rfl
  | c :: cs =>
    rw [extractImageUrlsList.eq_def, countImageSrcNodesList.eq_def]
    have h1 := extractImageUrls_length c
    have h2 := extractImageUrlsList_length cs
    simp [h1, h2]

end

mutual

/-- A URL appears in `extractImageUrls t` exactly when some image node of
`t` carries it as a truthy `src`. -/
theorem extractImageUrls_mem (t : TipTapNode) (u : String) :
    u ∈ extractImageUrls t ↔ hasImageSrc t u = true := by
  match t with
  | .mk ty attrs content text marks =>
    rw [extractImageUrls.eq_def, hasImageSrc.eq_def]
    have hrest : u ∈ (match content with
        | some l => extractImageUrlsList l
        | none => ([] : List String)) ↔
        (match content with
        | some l => hasImageSrcList l u
        | none => false) = true := by
      cases content with
      | none => simp
      | some l => exact extractImageUrlsList_mem l u
    rw [List.mem_append]
    by_cases h : ty = "image" ∧ strTruthy (attrs.bind (·.src)) = true
    · obtain ⟨h1, h2⟩ := h
      cases hsrc : attrs.bind (·.src) with
      | none => rw [hsrc] at h2; simp [strTruthy] at h2
      | some s =>
        rw [hsrc] at h2
        simp only [h1, h2, hsrc, true_and, if_pos, Option.toList_some,
          List.mem_singleton, Bool.or_eq_true, decide_eq_true_eq,
          Option.some.injEq, hrest, eq_comm]
        cases hb : (match content with
          | some l => hasImageSrcList l u
          | none => false) <;>
          by_cases hu : u = s <;> simp [hu, hb]
    · have hnot : ¬ (ty = "image" ∧ strTruthy (attrs.bind (·.src)) = true ∧
          attrs.bind (·.src) = some u) := by
        rintro ⟨ha, hb, _⟩
        exact h ⟨ha, hb⟩
      simp only [h, if_neg, List.not_mem_nil, false_or, Bool.or_eq_true,
        decide_eq_true_eq, hnot, not_false_eq_true, false_or]
      exact hrest

/-- List version of `extractImageUrls_mem`. -/
theorem extractImageUrlsList_mem (l : List TipTapNode) (u : String) :
    u ∈ extractImageUrlsList l ↔ hasImageSrcList l u = true := by
  match l with
  | [] => simp [extractImageUrlsList, hasImageSrcList]
  | c :: cs =>
    rw [extractImageUrlsList.eq_def, hasImageSrcList.eq_def]
    rw [List.mem_append, Bool.or_eq_true]
    exact or_congr (extractImageUrls_mem c u) (extractImageUrlsList_mem cs u)

end

/-- Claim C8, counterexample: On a tree with two image nodes sharing the same
`src` `"x"`, `extractImageUrls` returns the two-entry list `["x", "x"]`:
repeated URLs are *not* collapsed to one entry by the function (it returns
an array, only its use as a membership filter is set-like), so the claim
that it returns a set in which duplicates collapse fails. -/
theorem extractImageUrls_duplicates_kept :
    countImageSrcNodes twoSameSrcImagesTree = 2 ∧
    extractImageUrls twoSameSrcImagesTree = ["x", "x"] ∧
    ¬ (extractImageUrls twoSameSrcImagesTree).Nodup := by
  refine ⟨rfl, rfl, ?_⟩
  intro h
  rw [show extractImageUrls twoSameSrcImagesTree = ["x", "x"] from rfl] at h
  simp at h

/-- Claim C8, amended: `extractImageUrls` returns exactly one entry per
image node carrying a truthy `src` — so `k` entries for a tree with `k`
such image nodes — and the entries are exactly the URLs some image node
references (duplicates preserved in the returned list; they collapse only
where the list is consumed as a membership filter). -/
theorem extractImageUrls_exact (t : TipTapNode) :
    (extractImageUrls t).length = countImageSrcNodes t ∧
    (∀ u, u ∈ extractImageUrls t ↔ hasImageSrc t u = true) :=
  ⟨extractImageUrls_length t, fun u => extractImageUrls_mem t u⟩

/-! ## C5 — sweep eligibility and fail-closed batching -/

/-- Claim C5: An image is selected by the cleanup sweep's orphan filter iff
it is orphan (`articleId` null) and strictly older than the retention
window (`now − createdAt > W`, i.e. `createdAt < now − W`); an image
linked to any article is never selected, however old; and when the storage
batch deletion reports anything other than full success — in particular a
partial failure — the database rows are left exactly as they were and zero
rows are reported deleted. -/
theorem cleanup_eligibility_fail_closed (now : Int) (img : Image)
    (imgs : List Image) (storage : StorageDeleteResult) :
    (isStaleOrphan now img = true ↔
      (img.articleId = none ∧ now - img.createdAt > retentionWindowMs)) ∧
    (∀ a, img.articleId = some a → isStaleOrphan now img = false) ∧
    (storage.success = false →
      cleanupImages now imgs storage = ⟨imgs, 0⟩) := by
  refine ⟨?_, ?_, ?_⟩
  · simp only [isStaleOrphan, Bool.decide_and, Bool.and_eq_true,
      decide_eq_true_eq]
    constructor
    · rintro ⟨h1, h2⟩
      exact ⟨h1, by omega⟩
    · rintro ⟨h1, h2⟩
      exact ⟨h1, by omega⟩
  · intro a ha
    simp [isStaleOrphan, ha]
  · intro hfail
    rw [cleanupImages]
    split
    · rfl
    · simp [hfail]

/-- Witness for C5: at `now` = 25 h an orphan uploaded at time 0 satisfies
the filter, an image linked to article 3 does not, and a batch where 2 of
3 storage deletions failed (`success = false`, `deletedCount = 1`) deletes
zero database rows. -/
theorem cleanup_eligibility_fail_closed_witness :
    (isStaleOrphan (25 * 60 * 60 * 1000)
        ⟨1, "u", "k", 5, none, 0⟩ = true ↔
      ((none : Option Nat) = none ∧
        25 * 60 * 60 * 1000 - 0 > retentionWindowMs)) ∧
    (∀ a, (some 3 : Option Nat) = some a →
      isStaleOrphan (25 * 60 * 60 * 1000) ⟨2, "u2", "k2", 5, some 3, 0⟩ = false) ∧
    ((false = false) →
      cleanupImages (25 * 60 * 60 * 1000)
        [⟨1, "u", "k", 5, none, 0⟩, ⟨2, "u2", "k2", 5, some 3, 0⟩]
        ⟨false, 1⟩ =
      ⟨[⟨1, "u", "k", 5, none, 0⟩, ⟨2, "u2", "k2", 5, some 3, 0⟩], 0⟩) := by
  refine ⟨?_, ?_, ?_⟩
  · exact (cleanup_eligibility_fail_closed (25 * 60 * 60 * 1000)
      ⟨1, "u", "k", 5, none, 0⟩ [] ⟨false, 1⟩).1
  · exact (cleanup_eligibility_fail_closed (25 * 60 * 60 * 1000)
      ⟨2, "u2", "k2", 5, some 3, 0⟩ [] ⟨false, 1⟩).2.1
  · intro _
    exact (cleanup_eligibility_fail_closed (25 * 60 * 60 * 1000)
      ⟨1, "u", "k", 5, none, 0⟩
      [⟨1, "u", "k", 5, none, 0⟩, ⟨2, "u2", "k2", 5, some 3, 0⟩]
      ⟨false, 1⟩).2.2 rfl

/-! ## C9 — publish links only matching orphan images -/

/-- Claim C9: The image-linking step of publish rewrites each image row
pointwise: a row is changed only when it simultaneously is orphan
(`articleId` null), belongs to the publishing author and has its URL in
the referenced set, and then only its `articleId` field is set to the new
article; every other row — in particular an image already linked to some
article, whatever its URL and owner — is returned unchanged. -/
theorem publishLinkImages_frame (imgs : List Image) (content : TipTapNode)
    (thumb : Option String) (uid aid : Nat) :
    List.Forall₂
      (fun pre post => post =
        if pre.url ∈ publishImageUrls content thumb ∧ pre.userId = uid ∧
            pre.articleId = none then
          { pre with articleId := some aid }
        else pre)
      imgs (publishLinkImages imgs content thumb uid aid) := by
  rw [publishLinkImages]
  split
  · rw [linkOrphanImages]
    induction imgs with
    | nil => exact List.Forall₂.nil
    | cons x xs ih => exact List.Forall₂.cons rfl ih
  · rename_i hlen
    have hemp : publishImageUrls content thumb = [] := by
      cases h : publishImageUrls content thumb with
      | nil => rfl
      | cons a as => rw [h] at hlen; simp at hlen
    induction imgs with
    | nil => exact List.Forall₂.nil
    | cons x xs ih =>
      refine List.Forall₂.cons ?_ ih
      rw [if_neg]
      rintro ⟨hmem, -, -⟩
      rw [hemp] at hmem
      exact List.not_mem_nil _ hmem

/-! ## C1 — price validation on publish -/

/-- Claim C1: With title and content present (and any journal gate that
passes), the publish pipeline rejects with a ValidationError every price
that is an integer outside 1–5 — in particular 0, −1 and 6 — and every
non-integer price, while a null price and each integer price 1–5 are
accepted, the created article storing `price = null` respectively the
integer itself (so a created article's price is always null or an integer
in 1–5). -/
theorem publish_price_validation (members : List JournalMember)
    (authorId : Nat) (title : String) (c : TipTapNode)
    (thumb : Option String) (jid : Option Nat) (ht : ¬ title = "")
    (hj : ∀ j, jid = some j →
      holdsJournalMembership members authorId j = true) :
    (∀ n : Int, (n < 1 ∨ 5 < n) →
      publish members authorId ⟨title, some c, thumb, .intVal n, jid⟩ =
        .error .validation) ∧
    (publish members authorId ⟨title, some c, thumb, .nonInteger, jid⟩ =
      .error .validation) ∧
    (∃ a, publish members authorId ⟨title, some c, thumb, .null, jid⟩ =
      .ok a ∧ a.price = none) ∧
    (∀ n : Int, 1 ≤ n → n ≤ 5 →
      ∃ a, publish members authorId ⟨title, some c, thumb, .intVal n, jid⟩ =
        .ok a ∧ a.price = some n) := by
  refine ⟨?_, ?_, ?_, ?_⟩
  · intro n hn
    have hbad : ¬ validPrice (.intVal n) = true := by
      simp only [validPrice, Bool.decide_and, Bool.and_eq_true,
        decide_eq_true_eq]
      omega
    simp [publish, ht, hbad]
  · simp [publish, ht, validPrice]
  · refine ⟨⟨title, c, thumb, none, jid, authorId⟩, ?_, rfl⟩
    cases jid with
    | none => simp [publish, ht, validPrice, priceValue]
    | some j => simp [publish, ht, validPrice, priceValue, hj j rfl]
  · intro n h1 h5
    have hok : validPrice (.intVal n) = true := by
      simp only [validPrice, Bool.decide_and, Bool.and_eq_true,
        decide_eq_true_eq]
      omega
    refine ⟨⟨title, c, thumb, some n, jid, authorId⟩, ?_, rfl⟩
    cases jid with
    | none => simp [publish, ht, hok, priceValue]
    | some j => simp [publish, ht, hok, priceValue, hj j rfl]

/-- Witness for C1 with no journal: prices 0, −1, 6 and a non-integer are
rejected, null and 1…5 accepted. -/
theorem publish_price_validation_witness :
    (publish [] 5 ⟨"t", some (.mk "doc" none none none none), none,
      .intVal 0, none⟩ = .error .validation) ∧
    (publish [] 5 ⟨"t", some (.mk "doc" none none none none), none,
      .intVal (-1), none⟩ = .error .validation) ∧
    (publish [] 5 ⟨"t", some (.mk "doc" none none none none), none,
      .intVal 6, none⟩ = .error .validation) ∧
    (publish [] 5 ⟨"t", some (.mk "doc" none none none none), none,
      .nonInteger, none⟩ = .error .validation) ∧
    (∃ a, publish [] 5 ⟨"t", some (.mk "doc" none none none none), none,
      .null, none⟩ = .ok a ∧ a.price = none) ∧
    (∃ a, publish [] 5 ⟨"t", some (.mk "doc" none none none none), none,
      .intVal 3, none⟩ = .ok a ∧ a.price = some 3) := by
  have h := publish_price_validation [] 5 "t" (.mk "doc" none none none none)
    none none (by decide) (fun j hj => by cases hj)
  exact ⟨h.1 0 (by omega), h.1 (-1) (by omega), h.1 6 (by omega), h.2.1,
    h.2.2.1, h.2.2.2 3 (by omega) (by omega)⟩

/-! ## C2 — journal membership gate on publish -/

/-- Claim C2: With title, content and price valid and a `journalId`
supplied, publish succeeds exactly when the membership check passes: if
the author has no membership row at all in that journal the result is a
ForbiddenError, and with a membership in role ADMIN or WRITER the article
is created under that journal; the check itself holds iff such an
ADMIN-or-WRITER membership row exists. -/
theorem publish_journal_membership (members : List JournalMember)
    (authorId : Nat) (title : String) (c : TipTapNode)
    (thumb : Option String) (price : PriceInput) (j : Nat)
    (ht : ¬ title = "") (hp : validPrice price = true) :
    ((∀ m ∈ members, ¬ (m.userId = authorId ∧ m.journalId = j)) →
      publish members authorId ⟨title, some c, thumb, price, some j⟩ =
        .error .forbidden) ∧
    (holdsJournalMembership members authorId j = false →
      publish members authorId ⟨title, some c, thumb, price, some j⟩ =
        .error .forbidden) ∧
    (holdsJournalMembership members authorId j = true →
      ∃ a, publish members authorId ⟨title, some c, thumb, price, some j⟩ =
        .ok a ∧ a.journalId = some j ∧ a.authorId = authorId) ∧
    (holdsJournalMembership members authorId j = true ↔
      ∃ m ∈ members, m.userId = authorId ∧ m.journalId = j ∧
        (m.role = .ADMIN ∨ m.role = .WRITER)) := by
  have hchar : holdsJournalMembership members authorId j = true ↔
      ∃ m ∈ members, m.userId = authorId ∧ m.journalId = j ∧
        (m.role = .ADMIN ∨ m.role = .WRITER) := by
    simp [holdsJournalMembership, List.any_eq_true]
  refine ⟨?_, ?_, ?_, hchar⟩
  · intro hno
    have hfalse : ¬ holdsJournalMembership members authorId j = true := by
      rw [hchar]
      rintro ⟨m, hm, hu, hjj, -⟩
      exact hno m hm ⟨hu, hjj⟩
    simp [publish, ht, hp, hfalse]
  · intro hfalse
    simp [publish, ht, hp, hfalse]
  · intro htrue
    refine ⟨⟨title, c, thumb, priceValue price, some j, authorId⟩, ?_, rfl, rfl⟩
    simp [publish, ht, hp, htrue]

/-- Witness for C2: user 5 is a WRITER of journal 9 and may publish there;
user 6 has no membership and is rejected. -/
theorem publish_journal_membership_witness :
    (publish [⟨1, 5, 9, .WRITER⟩] 6
      ⟨"t", some (.mk "doc" none none none none), none, .null, some 9⟩ =
        .error .forbidden) ∧
    (∃ a, publish [⟨1, 5, 9, .WRITER⟩] 5
      ⟨"t", some (.mk "doc" none none none none), none, .null, some 9⟩ =
        .ok a ∧ a.journalId = some 9 ∧ a.authorId = 5) := by
  constructor
  · exact (publish_journal_membership [⟨1, 5, 9, .WRITER⟩] 6 "t"
      (.mk "doc" none none none none) none .null 9 (by decide) rfl).1
      (by decide)
  · exact (publish_journal_membership [⟨1, 5, 9, .WRITER⟩] 5 "t"
      (.mk "doc" none none none none) none .null 9 (by decide) rfl).2.2.1
      (by decide)

/-! ## C3 — derived hasPurchased and author access -/

/-- Claim C3: The `hasPurchased` flag derived for a signed-in viewer is true
exactly when a purchase row exists for that (viewer, article) pair, and
whenever the viewer is the article's author the purchase banner is off and
the full article body is rendered, whatever the price and whether or not a
purchase exists. -/
theorem read_view_author_access (purchases : List Purchase)
    (article : ArticleRead) (viewer : Option Nat) :
    (∀ v, hasPurchased purchases (some v) article.id = true ↔
      ∃ p ∈ purchases, p.userId = v ∧ p.articleId = article.id) ∧
    (viewer = some article.authorId →
      shouldShowPurchaseBanner article viewer
        (hasPurchased purchases viewer article.id) = false ∧
      showsFullContent (shouldShowPurchaseBanner article viewer
        (hasPurchased purchases viewer article.id)) = true) := by
  constructor
  · intro v
    simp [hasPurchased, List.any_eq_true]
  · intro hauthor
    have hb : shouldShowPurchaseBanner article viewer
        (hasPurchased purchases viewer article.id) = false := by
      simp [shouldShowPurchaseBanner, hauthor]
    exact ⟨hb, by rw [hb]; rfl⟩

/-- Witness for C3: viewer 5 has purchased article 1 (flag true), viewer 6
has not (flag false), and author 7 of the priced article 1 sees the full
body with the banner off. -/
theorem read_view_author_access_witness :
    (hasPurchased [⟨1, 5, 1, 3⟩] (some 5) 1 = true ↔
      ∃ p ∈ [(⟨1, 5, 1, 3⟩ : Purchase)], p.userId = 5 ∧ p.articleId = 1) ∧
    (shouldShowPurchaseBanner ⟨1, 7, some 3⟩ (some 7)
      (hasPurchased [⟨1, 5, 1, 3⟩] (some 7) 1) = false) ∧
    (hasPurchased [⟨1, 5, 1, 3⟩] (some 6) 1 = false) := by
  have h := read_view_author_access [⟨1, 5, 1, 3⟩]
    (⟨1, 7, some 3⟩ : ArticleRead) (some 7)
  exact ⟨h.1 5, (h.2 rfl).1, by decide⟩

/-! ## Lemmas about the journal role-change -/

/-- Updating the role of member rows that all live in `journalId` does not
change the admin count of any other journal. -/
theorem countAdmins_roleUpdate_ne (members : List JournalMember)
    (memberId : Nat) (role : JournalRole) (journalId j : Nat)
    (htgt : ∀ m ∈ members, m.id = memberId → m.journalId = journalId)
    (hne : ¬ j = journalId) :
    countAdmins (roleUpdate members memberId role) j =
      countAdmins members j := by
  rw [countAdmins, countAdmins, roleUpdate, List.countP_map]
  apply List.countP_congr
  intro m hm
  by_cases hid : m.id = memberId
  · have hj := htgt m hm hid
    have hnj : ¬ m.journalId = j := fun h => hne (by rw [← h, hj])
    simp [Function.comp, hid, hnj]
  · simp [Function.comp, hid]

/-- Dropping every member row of `journalId` does not change the admin
count of any other journal. -/
theorem countAdmins_filter_out (members : List JournalMember)
    (journalId j : Nat) (hne : ¬ j = journalId) :
    countAdmins (members.filter (fun m => ¬ m.journalId = journalId)) j =
      countAdmins members j := by
  rw [countAdmins, countAdmins, List.countP_filter]
  apply List.countP_congr
  intro m hm
  by_cases hj : m.journalId = j
  · have hnj : ¬ m.journalId = journalId := fun h => hne (by rw [← hj, h])
    simp only [hj, hnj]
    simp
    exact fun _ => hne
  · simp [hj]

/-! ## C4 — cascade delete when a role change empties a journal's admins -/

/-- Claim C4, counterexample: The PATCH handler looks up and updates the
member row only by its id, without checking that it belongs to the given
journal, and then recounts the admins of the *given* journal.  In
`twoJournalState` (user 10 sole ADMIN of journal 1, user 20 sole ADMIN of
journal 2), user 10 — admin of journal 1 — issues a role change naming
`journalId = 1` but `memberId = 2`, the sole-admin membership of journal
2.  The call succeeds with `deleted: false`, journal 2 still exists, and
journal 2 is left with zero ADMIN members: a role change that leaves a
journal with zero admins without deleting it, so the claimed invariant
"no journal with zero ADMIN members ever exists" fails. -/
theorem roleChange_cross_journal_counterexample :
    (patchMemberRole twoJournalState 10 1 2 .WRITER).1 = .ok false ∧
    2 ∈ (patchMemberRole twoJournalState 10 1 2 .WRITER).2.journals ∧
    countAdmins (patchMemberRole twoJournalState 10 1 2 .WRITER).2.members
      2 = 0 := by
  decide

/-- Claim C4, amended: For a role change whose target member row belongs to
the journal named in the request: if the caller's admin check fails or a
row is missing nothing changes; otherwise, when the update leaves the
journal with zero ADMIN members, the one-step cascade removes the journal,
every one of its member rows and every article reference to it while
keeping the articles themselves, and the response reports `deleted: true`;
when admins remain the response reports `deleted: false`; and under this
same-journal restriction a role change never leaves an existing journal
with zero ADMIN members. -/
theorem roleChange_zero_admin_cascade (s : JournalState)
    (callerId journalId memberId : Nat) (role : JournalRole)
    (res : PatchRoleResult) (s2 : JournalState)
    (heq : patchMemberRole s callerId journalId memberId role = (res, s2))
    (hwf : MembersReferenceJournals s)
    (hinv : EveryJournalHasAdmin s)
    (htgt : ∀ m ∈ s.members, m.id = memberId → m.journalId = journalId) :
    EveryJournalHasAdmin s2 ∧
    (res = .ok true →
      journalId ∉ s2.journals ∧
      (∀ m ∈ s2.members, ¬ m.journalId = journalId) ∧
      (∀ a ∈ s2.articles, ¬ a.journalId = some journalId) ∧
      s2.articles.map JArticle.id = s.articles.map JArticle.id) ∧
    (∀ b, res = .ok b → (b = true ↔ journalId ∉ s2.journals)) := by
  rw [patchMemberRole] at heq
  cases hra : requireAdmin s callerId journalId with
  | none =>
    rw [hra] at heq
    injection heq with h1 h2
    subst h1; subst h2
    refine ⟨hinv, ?_, ?_⟩
    · intro h; simp at h
    · intro b hb; simp at hb
  | some mem =>
    rw [hra] at heq
    have hmemmem : mem ∈ s.members := List.mem_of_find?_eq_some hra
    have hmempred := List.find?_some hra
    have hmemj : mem.journalId = journalId := by
      simp only [Bool.decide_and, Bool.and_eq_true, decide_eq_true_eq]
        at hmempred
      exact hmempred.2.1
    have hjmem : journalId ∈ s.journals := hmemj ▸ hwf mem hmemmem
    by_cases hall : s.members.all (fun m => ¬ m.id = memberId) = true
    · rw [if_pos hall] at heq
      injection heq with h1 h2
      subst h1; subst h2
      refine ⟨hinv, ?_, ?_⟩
      · intro h; simp at h
      · intro b hb; simp at hb
    · rw [if_neg hall] at heq
      by_cases hzero :
          countAdmins (roleUpdate s.members memberId role) journalId = 0
      · rw [if_pos hzero, if_pos hjmem] at heq
        injection heq with h1 h2
        subst h1; subst h2
        refine ⟨?_, ?_, ?_⟩
        · intro j hj
          rw [cascadeState] at hj ⊢
          simp only [List.mem_filter, decide_eq_true_eq] at hj
          obtain ⟨hjs, hne⟩ := hj
          rw [countAdmins_filter_out _ _ _ hne,
            countAdmins_roleUpdate_ne _ _ _ _ _ htgt hne]
          exact hinv j hjs
        · intro _
          refine ⟨?_, ?_, ?_, ?_⟩
          · rw [cascadeState]
            simp
          · intro m hm
            rw [cascadeState] at hm
            simp only [List.mem_filter, decide_eq_true_eq] at hm
            exact hm.2
          · intro a ha
            rw [cascadeState] at ha
            simp only [List.mem_map] at ha
            obtain ⟨pre, -, rfl⟩ := ha
            by_cases hpj : pre.journalId = some journalId
            · simp [hpj]
            · simp [hpj]
          · rw [cascadeState]
            simp only [List.map_map]
            apply List.map_congr_left
            intro a _
            by_cases hpj : a.journalId = some journalId
            · simp [Function.comp, hpj]
            · simp [Function.comp, hpj]
        · intro b hb
          injection hb with hb1
          subst hb1
          rw [cascadeState]
          simp
      · rw [if_neg hzero] at heq
        injection heq with h1 h2
        subst h1; subst h2
        refine ⟨?_, ?_, ?_⟩
        · intro j hj
          simp only at hj
          by_cases hje : j = journalId
          · subst hje
            exact Nat.pos_of_ne_zero hzero
          · rw [show ({ s with members := roleUpdate s.members memberId role} :
                JournalState).members = roleUpdate s.members memberId role
                from rfl,
              countAdmins_roleUpdate_ne _ _ _ _ _ htgt hje]
            exact hinv j hj
        · intro h; simp at h
        · intro b hb
          injection hb with hb1
          subst hb1
          simp [hjmem]

/-- Witness for C4 (amended): the sole ADMIN of journal 1 demotes their
own membership to WRITER; the cascade deletes journal 1, clears its
member rows and un-journals its article 7 (which survives), reporting
`deleted: true`. -/
theorem roleChange_zero_admin_cascade_witness :
    EveryJournalHasAdmin
      (⟨[], [], [⟨7, none⟩]⟩ : JournalState) ∧
    (1 ∉ (⟨[], [], [⟨7, none⟩]⟩ : JournalState).journals ∧
      (∀ m ∈ (⟨[], [], [⟨7, none⟩]⟩ : JournalState).members,
        ¬ m.journalId = 1) ∧
      (∀ a ∈ (⟨[], [], [⟨7, none⟩]⟩ : JournalState).articles,
        ¬ a.journalId = some 1) ∧
      (⟨[], [], [⟨7, none⟩]⟩ : JournalState).articles.map JArticle.id =
        [(⟨7, some 1⟩ : JArticle)].map JArticle.id) := by
  have h := roleChange_zero_admin_cascade
    ⟨[1], [⟨1, 10, 1, .ADMIN⟩], [⟨7, some 1⟩]⟩ 10 1 1 .WRITER
    (.ok true) ⟨[], [], [⟨7, none⟩]⟩ (by decide)
    (by unfold MembersReferenceJournals; decide)
    (by unfold EveryJournalHasAdmin countAdmins; decide) (by decide)
  exact ⟨h.1, h.2.1 rfl⟩

/-! ## C10 — at most one purchase per (user, article) -/

/-- Claim C10: Recording a purchase for a pair not yet in the ledger
succeeds and appends a row capturing the amount paid at that moment; any
second attempt for the same (user, article) pair — whatever amount a later
price edit would make it carry — is rejected with a ConflictError, the
surviving row still carries the first attempt's amount, the schema's
unique-index invariant is preserved, and exactly one row for the pair
exists. -/
theorem recordPurchase_once (ledger : List Purchase) (pid u a : Nat)
    (amt : Int)
    (habs : ∀ p ∈ ledger, ¬ (p.userId = u ∧ p.articleId = a))
    (huniq : PurchasesUnique ledger) :
    ∃ ledger2,
      recordPurchase ledger pid u a amt = .ok ledger2 ∧
      findPurchase ledger2 u a = some ⟨pid, u, a, amt⟩ ∧
      (∀ pid2 amt2, recordPurchase ledger2 pid2 u a amt2 =
        .error .conflict) ∧
      PurchasesUnique ledger2 ∧
      ledger2.countP (fun p => p.userId = u ∧ p.articleId = a) = 1 := by
  have hany : ledger.any (fun p => p.userId = u ∧ p.articleId = a) = false := by
    rw [List.any_eq_false]
    intro p hp
    simpa using habs p hp
  refine ⟨ledger ++ [⟨pid, u, a, amt⟩], ?_, ?_, ?_, ?_, ?_⟩
  · rw [recordPurchase, if_neg (by rw [hany]; exact Bool.false_ne_true)]
  · have hnone : ledger.find?
        (fun p => p.userId = u ∧ p.articleId = a) = none := by
      rw [List.find?_eq_none]
      intro p hp
      simpa using habs p hp
    rw [findPurchase, List.find?_append, hnone]
    simp
  · intro pid2 amt2
    rw [recordPurchase, if_pos]
    rw [List.any_eq_true]
    exact ⟨⟨pid, u, a, amt⟩, by simp, by simp⟩
  · rw [PurchasesUnique, List.pairwise_append]
    refine ⟨huniq, List.pairwise_singleton _ _, ?_⟩
    intro p hp q hq
    simp only [List.mem_singleton] at hq
    subst hq
    simpa using habs p hp
  · rw [List.countP_append]
    have h0 : ledger.countP
        (fun p => p.userId = u ∧ p.articleId = a) = 0 := by
      rw [List.countP_eq_zero]
      intro p hp
      simpa using habs p hp
    have h1 : ([⟨pid, u, a, amt⟩] : List Purchase).countP
        (fun p => p.userId = u ∧ p.articleId = a) = 1 := by
      simp [List.countP_cons]
    rw [h0, h1]

/-- Witness for C10: with one unrelated purchase on the ledger, the pair
(user 5, article 7) is recorded once with amount 3 and a second attempt
carrying 4 conflicts. -/
theorem recordPurchase_once_witness :
    ∃ ledger2,
      recordPurchase [⟨1, 2, 3, 4⟩] 9 5 7 3 = .ok ledger2 ∧
      findPurchase ledger2 5 7 = some ⟨9, 5, 7, 3⟩ ∧
      (∀ pid2 amt2, recordPurchase ledger2 pid2 5 7 amt2 =
        .error .conflict) ∧
      PurchasesUnique ledger2 ∧
      ledger2.countP (fun p => p.userId = 5 ∧ p.articleId = 7) = 1 :=
  recordPurchase_once [⟨1, 2, 3, 4⟩] 9 5 7 3 (by decide)
    (by simp [PurchasesUnique])

end Kiosk
